import Mathlib

/-!
# RSendMail — verification of the sending engine

A shallow embedding of the Rust sources of RSendMail
(`crates/rsendmail-core/src/{stats,config,anonymizer,mailer}.rs` and
`crates/rsendmail-cli/src/main.rs`), followed by theorems settling the
specification claims about the statistics accumulator, the scheduler
partitioning, the anonymizer, the batch driver's connection-reset policy,
and the authentication gating.

Modelling conventions:
* Rust `usize`/`u64` counters are `Nat`; the one place where `usize`
  subtraction can underflow (the statistics display) is modelled with an
  explicit `Option` (`none` = the arithmetic panics in a checked build).
* `HashMap<String, _>` read through `entry().or_insert`/`or_default` is
  modelled as a total function with the default as the absent value.
* Durations are abstract `Nat` tick counts.
* Byte buffers that flow through the anonymizer are modelled as `String`
  (the engine paths relevant to the claims all decode as UTF-8; the
  non-UTF-8 branch of `anonymize_binary` returns its input unchanged).
* The SMTP server and the filesystem are oracles: each source file carries
  a script of step outcomes, and the batch driver is the pure function of
  the config and the scripts found in `send_batch_emails`.
-/

namespace RSendMail

/-! ## Stats (crates/rsendmail-core/src/stats.rs) -/

/-- `Stats` from stats.rs.  `error_details` / `failed_files` model the two
`HashMap`s as total maps (absent key = `0` / `[]`, matching
`entry().or_insert(0)` and `entry().or_default()`). -/
structure Stats where
  email_count : Nat
  parse_durations : List Nat
  send_durations : List Nat
  total_duration : Nat
  parse_errors : Nat
  send_errors : Nat
  error_details : String → Nat
  failed_files : String → List String

/-- `Stats::new()`. -/
def Stats.new : Stats :=
  { email_count := 0
    parse_durations := []
    send_durations := []
    total_duration := 0
    parse_errors := 0
    send_errors := 0
    error_details := fun _ => 0
    failed_files := fun _ => [] }

/-- `Stats::increment_error(error_type, file_path)`: bumps
`error_details[error_type]`, pushes `file_path` onto
`failed_files[error_type]`, and increments `send_errors`. -/
def Stats.increment_error (s : Stats) (error_type file_path : String) : Stats :=
  { s with
    error_details := fun k =>
      if k = error_type then s.error_details k + 1 else s.error_details k
    failed_files := fun k =>
      if k = error_type then s.failed_files k ++ [file_path] else s.failed_files k
    send_errors := s.send_errors + 1 }

/-- The per-round accumulation performed by the CLI main loop
(crates/rsendmail-cli/src/main.rs, the `Ok(stats)` arm): counters are
summed, duration vectors concatenated, `error_details` summed per key and
`failed_files` concatenated per key. -/
def Stats.merge_round (total s : Stats) : Stats :=
  { email_count := total.email_count + s.email_count
    parse_durations := total.parse_durations ++ s.parse_durations
    send_durations := total.send_durations ++ s.send_durations
    total_duration := total.total_duration
    parse_errors := total.parse_errors + s.parse_errors
    send_errors := total.send_errors + s.send_errors
    error_details := fun k => total.error_details k + s.error_details k
    failed_files := fun k => total.failed_files k ++ s.failed_files k }

/-- `stats.email_count = total_sent` at the end of
`send_fixed_mode_with_cancel`. -/
def Stats.set_email_count (s : Stats) (n : Nat) : Stats :=
  { s with email_count := n }

/-- `stats.email_count += 1` in the attachment send paths. -/
def Stats.bump_email_count (s : Stats) : Stats :=
  { s with email_count := s.email_count + 1 }

/-- `stats.parse_durations.extend(..); stats.send_durations.extend(..)`
in the scheduler join loop. -/
def Stats.extend_durations (s : Stats) (pd sd : List Nat) : Stats :=
  { s with
    parse_durations := s.parse_durations ++ pd
    send_durations := s.send_durations ++ sd }

/-- `stats.total_duration = start.elapsed()`. -/
def Stats.set_total_duration (s : Stats) (d : Nat) : Stats :=
  { s with total_duration := d }

/-- The states a `Stats` value can reach through the operations the CLI
round loop performs: `Stats::new()`, `increment_error`, and the per-round
accumulation of another reachable `Stats`. -/
inductive StatsReachable : Stats → Prop
  | new : StatsReachable Stats.new
  | incr (s : Stats) (e p : String) :
      StatsReachable s → StatsReachable (s.increment_error e p)
  | merge (total s : Stats) :
      StatsReachable total → StatsReachable s →
      StatsReachable (total.merge_round s)

/-- The states a `Stats` value can reach inside one run of the core engine
(`Mailer`): `Stats::new()` followed by `increment_error` and the direct
field updates the engine performs (`email_count`, duration vectors,
`total_duration`).  No engine operation writes `parse_errors`. -/
inductive CoreRunReachable : Stats → Prop
  | new : CoreRunReachable Stats.new
  | incr (s : Stats) (e p : String) :
      CoreRunReachable s → CoreRunReachable (s.increment_error e p)
  | set_count (s : Stats) (n : Nat) :
      CoreRunReachable s → CoreRunReachable (s.set_email_count n)
  | bump_count (s : Stats) :
      CoreRunReachable s → CoreRunReachable s.bump_email_count
  | extend (s : Stats) (pd sd : List Nat) :
      CoreRunReachable s → CoreRunReachable (s.extend_durations pd sd)
  | set_dur (s : Stats) (d : Nat) :
      CoreRunReachable s → CoreRunReachable (s.set_total_duration d)

/-- Rust `usize` subtraction in a checked build: `none` models the
overflow panic. -/
def usizeSub (a b : Nat) : Option Nat :=
  if b ≤ a then some (a - b) else none

/-- The figure the `Display` impl for `Stats` prints as "成功发送"
(successfully sent): `email_count - send_errors - parse_errors` on
`usize` (stats.rs line 68).  `none` models the underflow panic. -/
def Stats.display_success (s : Stats) : Option Nat :=
  (usizeSub s.email_count s.send_errors).bind fun x => usizeSub x s.parse_errors

/-! ## Config (crates/rsendmail-core/src/config.rs) -/

/-- `ProcessMode` from config.rs. -/
inductive ProcessMode where
  | Auto : ProcessMode
  | Fixed : Nat → ProcessMode
deriving DecidableEq

/-- Rust `str::parse::<usize>()`: optional leading `+`, then one or more
ASCII digits, value below `2^64` (64-bit `usize`). -/
def parseUsize (s : String) : Option Nat :=
  let ds := match s.data with
    | '+' :: rest => rest
    | cs => cs
  if ds.isEmpty then none
  else if ds.all Char.isDigit then
    let v := ds.foldl (fun acc c => acc * 10 + (c.toNat - 48)) 0
    if v < 2 ^ 64 then some v else none
  else none

/-- `Config::process_mode()` (config.rs lines 178–187): `"auto"` maps to
`Auto`; otherwise any string parsing as `usize` (zero included) maps to
`Fixed`, and a parse failure maps to `Auto`. -/
def process_mode (processes : String) : ProcessMode :=
  if processes = "auto" then ProcessMode.Auto
  else match parseUsize processes with
    | some n => ProcessMode.Fixed n
    | none => ProcessMode.Auto

/-! ## Scheduler partitioning (mailer.rs, send_fixed_mode_with_cancel) -/

/-- Rust `usize::div_ceil`: `a / b + (a % b != 0)`.  The engine only calls
it with the worker count as divisor. -/
def divCeil (a b : Nat) : Nat :=
  a / b + (if a % b ≠ 0 then 1 else 0)

/-- Helper for `chunksRust`: the fuel is an upper bound on the list
length, so the recursion always terminates; with `1 ≤ k` and fuel
`l.length` it computes exactly Rust `slice::chunks(k)`. -/
def chunksAux (k : Nat) : Nat → List α → List (List α)
  | _, [] => []
  | 0, _ => []
  | fuel + 1, a :: rest =>
      (a :: rest).take k :: chunksAux k fuel ((a :: rest).drop k)

/-- Rust `slice::chunks(k)`: `none` models the panic on `k == 0`
(`chunk size must be non-zero`); otherwise the list of consecutive chunks
of size `k` (last one possibly shorter). -/
def chunksRust (l : List α) (k : Nat) : Option (List (List α)) :=
  if k = 0 then none else some (chunksAux k l.length l)

/-- The scheduler's partition (mailer.rs lines 710–714):
`chunk_size = files.len().div_ceil(num_processes)` followed by
`files.chunks(chunk_size)`. -/
def scheduler_chunks (files : List String) (num_processes : Nat) :
    Option (List (List String)) :=
  chunksRust files (divCeil files.length num_processes)

/-! ## Authentication-mode gating (mailer.rs) -/

/-- What a worker does with a batch before any SMTP I/O. -/
inductive GateOutcome where
  | openSession : GateOutcome
  | recordAll : String → GateOutcome
deriving DecidableEq

/-- The gate at the head of each batch in `send_fixed_mode_with_cancel`
(mailer.rs lines 747–831): in auth mode the credentials are checked
first (missing ⇒ class `认证失败: 凭证不完整`), then
`use_tls = config.use_tls || config.port == 465` gates the connect
(false ⇒ class `认证失败: 需要TLS`); in every other case the worker
proceeds to open a connection. -/
def batch_auth_gate (auth_mode : Bool) (username password : Option String)
    (use_tls : Bool) (port : Nat) : GateOutcome :=
  if auth_mode then
    match username, password with
    | some _, some _ =>
        if use_tls || port == 465 then GateOutcome.openSession
        else GateOutcome.recordAll "认证失败: 需要TLS"
    | _, _ => GateOutcome.recordAll "认证失败: 凭证不完整"
  else GateOutcome.openSession

/-- The same gate in the single-attachment path
`send_attachment_with_cancel` (mailer.rs lines 538–604), whose class
strings differ: `认证失败: 需要TLS连接` and `认证失败: 缺少用户名或密码`. -/
def attachment_auth_gate (auth_mode : Bool) (username password : Option String)
    (use_tls : Bool) (port : Nat) : GateOutcome :=
  if auth_mode then
    match username, password with
    | some _, some _ =>
        if use_tls || port == 465 then GateOutcome.openSession
        else GateOutcome.recordAll "认证失败: 需要TLS连接"
    | _, _ => GateOutcome.recordAll "认证失败: 缺少用户名或密码"
  else GateOutcome.openSession

/-- The failure records produced by the gate: on `recordAll cls`, every
source of the batch is pushed with that class (`for file_path_in_batch in
&current_batch { group_stats.3.push((cls, file)) }`). -/
def gate_failures (g : GateOutcome) (batch : List String) :
    List (String × String) :=
  match g with
  | GateOutcome.openSession => []
  | GateOutcome.recordAll cls => batch.map fun f => (cls, f)

/-! ## Anonymizer (crates/rsendmail-core/src/anonymizer.rs)

The regular expression is the fixed pattern
`[a-zA-Z0-9._%+-]+@[a-zA-Z0-9.-]+\.[a-zA-Z]{2,}` compiled once in
`EmailAnonymizer::new`; we embed a direct matcher for exactly this
pattern (greedy character classes, leftmost match, `find_iter`
resuming at each match end).  The `rand::thread_rng` / `Alphanumeric`
sampler is modelled as an explicit stream of indices into the 62-element
alphanumeric charset, with a cursor advanced 8 positions per draw. -/

/-- `[a-zA-Z0-9._%+-]` — the local-part character class. -/
def isLocalChar (c : Char) : Bool :=
  c.isAlpha || c.isDigit || c = '.' || c = '_' || c = '%' || c = '+' || c = '-'

/-- `[a-zA-Z0-9.-]` — the domain character class. -/
def isDomainChar (c : Char) : Bool :=
  c.isAlpha || c.isDigit || c = '.' || c = '-'

/-- Finds how much of the maximal domain-character run `dom` the greedy
pattern `[a-zA-Z0-9.-]+\.[a-zA-Z]{2,}` consumes: the latest position
`p ≥ 1` holding a dot followed by at least two letters wins, and the
letter run after it is taken maximally.  Returns the matched length. -/
def domSplitAux (dom : List Char) : Nat → Option Nat
  | 0 => none
  | n + 1 =>
      let p := n + 1
      if dom.getD p ' ' = '.' then
        let r := ((dom.drop (p + 1)).takeWhile Char.isAlpha).length
        if 2 ≤ r then some (p + 1 + r) else domSplitAux dom n
      else domSplitAux dom n

/-- Matched length of `[a-zA-Z0-9.-]+\.[a-zA-Z]{2,}` on the maximal
domain run, or `none`. -/
def domSplit (dom : List Char) : Option Nat :=
  domSplitAux dom (dom.length - 1)

/-- Attempts the email pattern at the head of `cs`; returns the match
length.  The local class excludes `@`, so the greedy `+` needs no
backtracking. -/
def matchEmailAt (cs : List Char) : Option Nat :=
  let loc := cs.takeWhile isLocalChar
  if loc.isEmpty then none
  else match cs.drop loc.length with
    | '@' :: rest =>
        let dom := rest.takeWhile isDomainChar
        match domSplit dom with
        | some k => some (loc.length + 1 + k)
        | none => none
    | _ => none

/-- `email_regex.find_iter(text)` as a list of matched substrings:
scan left to right, resume after each match (fuel = remaining length,
and every match is nonempty, so the fuel suffices). -/
def findEmailsAux : Nat → List Char → List String
  | _, [] => []
  | 0, _ => []
  | fuel + 1, c :: rest =>
      match matchEmailAt (c :: rest) with
      | some len =>
          String.mk ((c :: rest).take len) ::
            findEmailsAux fuel ((c :: rest).drop len)
      | none => findEmailsAux fuel rest

/-- All regex matches of the email pattern in `text`, in order. -/
def findEmails (text : String) : List String :=
  findEmailsAux text.data.length text.data

/-- Rust `str::replace(pat, rep)`: replace every non-overlapping
occurrence of `pat`, scanning left to right (here `pat` is always a
nonempty matched address). -/
def replaceAllAux (pat rep : List Char) : Nat → List Char → List Char
  | _, [] => []
  | 0, cs => cs
  | fuel + 1, c :: rest =>
      if pat ≠ [] ∧ pat.isPrefixOf (c :: rest) then
        rep ++ replaceAllAux pat rep fuel ((c :: rest).drop pat.length)
      else c :: replaceAllAux pat rep fuel rest

/-- `String`-level `str::replace`. -/
def replaceAll (s pat rep : String) : String :=
  String.mk (replaceAllAux pat.data rep.data s.data.length s.data)

/-- The 62-character charset the `Alphanumeric` distribution samples
from. -/
def alnumChars : List Char :=
  "ABCDEFGHIJKLMNOPQRSTUVWXYZabcdefghijklmnopqrstuvwxyz0123456789".data

/-- One sampled alphanumeric character. -/
def alnumChar (i : Fin 62) : Char :=
  alnumChars.getD i.val 'A'

/-- `EmailAnonymizer` state: the address map (`HashMap` as an
association list keyed by first occurrence), the target domain, and the
random stream with its cursor. -/
structure AnonState where
  map : List (String × String)
  target_domain : String
  rng : Nat → Fin 62
  idx : Nat

/-- `EmailAnonymizer::new(target_domain)` seeded with a random stream. -/
def AnonState.new (target_domain : String) (rng : Nat → Fin 62) : AnonState :=
  { map := [], target_domain := target_domain, rng := rng, idx := 0 }

/-- Association-list lookup standing for `HashMap::get`. -/
def lookupMap (m : List (String × String)) (k : String) : Option String :=
  match m with
  | [] => none
  | (a, b) :: rest => if a = k then some b else lookupMap rest k

/-- `EmailAnonymizer::get_anonymized_email`: return the cached
replacement, or draw 8 alphanumeric characters, form
`<random>@<target_domain>`, record it and return it. -/
def get_anonymized_email (st : AnonState) (email : String) :
    String × AnonState :=
  match lookupMap st.map email with
  | some anonymized => (anonymized, st)
  | none =>
      let random_string :=
        String.mk (((List.range 8).map fun j => alnumChar (st.rng (st.idx + j))))
      let anonymized := random_string ++ "@" ++ st.target_domain
      (anonymized,
        { st with map := st.map ++ [(email, anonymized)], idx := st.idx + 8 })

/-- `EmailAnonymizer::anonymize_text`: collect all matches of the
original text, then for each matched address replace every occurrence of
it in the evolving result with its anonymized form. -/
def anonymize_text (st : AnonState) (text : String) : String × AnonState :=
  (findEmails text).foldl
    (fun acc email =>
      let step := get_anonymized_email acc.2 email
      (replaceAll acc.1 email step.1, step.2))
    (text, st)

/-- A concrete deterministic random stream used by the concrete
evaluations below: the n-th draw is charset index `n mod 62`. -/
def rngStd (n : Nat) : Fin 62 := ⟨n % 62, Nat.mod_lt _ (by decide)⟩

/-- `s` has the shape of an anonymised address for `domain`: an
8-character alphanumeric local part followed by `@domain`. -/
def isAnonAddress (domain s : String) : Bool :=
  ((s.data.take 8).all fun c => c.isAlpha || c.isDigit) &&
  decide (s.data.drop 8 = '@' :: domain.data)

/-- Every replacement cached in the map has anonymised-address shape. -/
def AnonMapOK (st : AnonState) : Prop :=
  ∀ pr ∈ st.map, isAnonAddress st.target_domain pr.2 = true

/-- The anonymizer states reachable within one run: a fresh instance
followed by any sequence of lookups and text passes. -/
inductive AnonReachable : AnonState → Prop
  | new (domain : String) (rng : Nat → Fin 62) :
      AnonReachable (AnonState.new domain rng)
  | get (st : AnonState) (email : String) :
      AnonReachable st → AnonReachable (get_anonymized_email st email).2
  | text (st : AnonState) (t : String) :
      AnonReachable st → AnonReachable (anonymize_text st t).2

/-- `AnonEvolves st st'`: within one anonymizer instance, state `st'`
arises from state `st` by some (possibly empty) sequence of further
lookups and text passes — the operations the instance performs during
the rest of the run. -/
inductive AnonEvolves : AnonState → AnonState → Prop
  | refl (st : AnonState) : AnonEvolves st st
  | get (st st' : AnonState) (email : String) :
      AnonEvolves st st' → AnonEvolves st (get_anonymized_email st' email).2
  | text (st st' : AnonState) (t : String) :
      AnonEvolves st st' → AnonEvolves st (anonymize_text st' t).2

/-! ## Batch driver (mailer.rs, send_batch_emails)

`send_batch_emails` is embedded as a pure function of the relevant config
fields and, per source file, a script of the outcomes of the filesystem
read, the message parse, and each SMTP command the driver may issue.
Durations and sleeps carry no information for the claims and are dropped;
the cancellation flag is fixed to `running = true` (the claims quantify
over batches that are actually processed). -/

/-- Outcome of the `DATA` step: the `timeout(...)` wrapper distinguishes
a command error (`Ok(Err(e))`) from the elapsed timeout (`Err(_)`). -/
inductive DataResult where
  | ok : DataResult
  | err : String → DataResult
  | timedOut : DataResult
deriving DecidableEq

/-- Per-source oracle: `read_err` is the `fs::read` error text (if any),
`parse_ok` the `MessageParser::parse` outcome, `build_err` the
`MessageBuilder::write_to_vec` error used only under `modify_headers`,
`mail_from` / `rcpt` / `data` / `rset` the wire outcomes (for `rcpt`,
position `i` answers the i-th recipient, missing entries meaning
success). -/
structure EmailScript where
  read_err : Option String
  parse_ok : Bool
  build_err : Option String
  mail_from : Option String
  rcpt : List (Option String)
  data : DataResult
  rset : Option String

/-- A script for a transaction in which every step succeeds. -/
def EmailScript.allOk : EmailScript :=
  { read_err := none, parse_ok := true, build_err := none
    mail_from := none, rcpt := [], data := DataResult.ok, rset := none }

/-- Rust `str::contains` on `List Char` (`pat` a substring of `s`). -/
def containsSub (s pat : List Char) : Bool :=
  match s with
  | [] => pat.isEmpty
  | _ :: rest => pat.isPrefixOf s || containsSub rest pat

/-- `msg.contains(pat)` on strings. -/
def strContains (msg pat : String) : Bool :=
  containsSub msg.data pat.data

/-- The five substrings whose presence in a MAIL FROM / DATA error
message marks the connection as needing a reset (mailer.rs lines
1180–1184 and 1282–1286). -/
def isConnectionFatal (msg : String) : Bool :=
  strContains msg "421" ||
  strContains msg "Cannot accept further commands" ||
  strContains msg "Broken pipe" ||
  strContains msg "Connection reset" ||
  strContains msg "Unparseable SMTP reply"

/-- `config.to.split(',').map(trim).filter(non-empty)` — the recipient
list derivation shared by both batch functions. -/
def parseRecipients (toAddr : String) : List String :=
  ((toAddr.splitOn ",").map String.trim).filter fun s => s ≠ ""

/-- Result of processing one source inside `send_batch_emails`:
the failure records pushed for it, whether it was counted a success,
and whether a connection-fatal MAIL FROM / DATA error broke the batch
(setting `connection_should_reset`). -/
structure EmailStepResult where
  fails : List (String × String)
  success : Bool
  fatalBreak : Bool

/-- One iteration of the `for (email_idx, file_path)` loop of
`send_batch_emails`, up to but excluding the trailing RSET block:
read (class `读取文件失败: <e>`), parse (class `无法解析邮件文件`),
recipient check (class `没有有效的收件人地址: <to>`), MAIL FROM (class
`设置发件人失败: <e>`, fatal-substring check, `break`), per-recipient
RCPT TO (classes `设置收件人 <r> 失败: <e>`, no fatal check), the
all-recipients-failed abort (no extra record), the `modify_headers`
build (class `构建邮件内容失败: <e>`), and DATA (classes
`邮件发送失败: <e>` with fatal-substring check and `break`, and
`邮件发送超时` on timeout with no check). -/
def processEmail (recips : List String) (toAddr : String) (modify_headers : Bool)
    (path : String) (sc : EmailScript) : EmailStepResult :=
  match sc.read_err with
  | some e => ⟨[("读取文件失败: " ++ e, path)], false, false⟩
  | none =>
    if !sc.parse_ok then ⟨[("无法解析邮件文件", path)], false, false⟩
    else if recips.isEmpty then
      ⟨[("没有有效的收件人地址: " ++ toAddr, path)], false, false⟩
    else match sc.mail_from with
      | some e =>
          let msg := "设置发件人失败: " ++ e
          ⟨[(msg, path)], false, isConnectionFatal msg⟩
      | none =>
          let rcptFails :=
            (recips.enum.filterMap fun ir =>
              match sc.rcpt.getD ir.1 none with
              | some e =>
                  some ("设置收件人 " ++ ir.2 ++ " 失败: " ++ e, path)
              | none => none)
          let anyRcptOk :=
            (List.range recips.length).any fun i => (sc.rcpt.getD i none).isNone
          if !anyRcptOk then ⟨rcptFails, false, false⟩
          else match (if modify_headers then sc.build_err else none) with
            | some e =>
                ⟨rcptFails ++ [("构建邮件内容失败: " ++ e, path)], false, false⟩
            | none =>
                match sc.data with
                | DataResult.ok => ⟨rcptFails, true, false⟩
                | DataResult.err e =>
                    let msg := "邮件发送失败: " ++ e
                    ⟨rcptFails ++ [(msg, path)], false, isConnectionFatal msg⟩
                | DataResult.timedOut =>
                    ⟨rcptFails ++ [("邮件发送超时", path)], false, false⟩

/-- Return value of `send_batch_emails`: success count, failure records,
and the `connection_should_reset` flag. -/
structure BatchOutcome where
  successes : Nat
  failures : List (String × String)
  reset : Bool

/-- The loop of `send_batch_emails` over the batch: per source run
`processEmail`; a fatal MAIL FROM / DATA error sets the reset flag and
breaks; otherwise, when the source is not the last one, issue RSET — any
RSET error sets the reset flag and breaks (no failure record, mailer.rs
lines 1308–1328). -/
def send_batch_emails (recips : List String) (toAddr : String)
    (modify_headers : Bool) : List (String × EmailScript) → BatchOutcome
  | [] => ⟨0, [], false⟩
  | (path, sc) :: rest =>
      let r := processEmail recips toAddr modify_headers path sc
      let succ := if r.success then 1 else 0
      if r.fatalBreak then ⟨succ, r.fails, true⟩
      else match rest with
        | [] => ⟨succ, r.fails, false⟩
        | _ :: _ =>
          match sc.rset with
          | some _ => ⟨succ, r.fails, true⟩
          | none =>
              let rec_ := send_batch_emails recips toAddr modify_headers rest
              ⟨succ + rec_.successes, r.fails ++ rec_.failures, rec_.reset⟩

/-- The worker's session bookkeeping after a batch (mailer.rs lines
966–983): on `connection_should_reset` the cached client is dropped, and
with `batch_size == 1` it is dropped as well. -/
def after_batch_client (client_opt : Option Unit) (should_reset : Bool)
    (batch_size : Nat) : Option Unit :=
  let c := if should_reset then none else client_opt
  if batch_size = 1 then none else c

/-! ## Wire bytes versus the Failed-Email Sink (mailer.rs) -/

/-- The bytes `send_batch_emails` hands to `client.data(..)` in the
`keep_headers` and default branches: the file content after the optional
anonymization pass (mailer.rs lines 1115–1126 and 1228–1262).  Under
`modify_headers` the bytes are instead rebuilt by `MessageBuilder`. -/
def wire_bytes_keep (anonymize : Bool) (st : AnonState) (raw : String) : String :=
  if anonymize then (anonymize_text st raw).1 else raw

/-- The bytes `save_failed_email` persists: `fs::copy(source_path, ..)`
copies the original file from disk, so the persisted bytes are the raw
source bytes regardless of any transformation applied to the wire copy
(mailer.rs lines 55–106). -/
def save_failed_email_bytes (raw : String) : String := raw

/-! ## Theorems -/

/-- C3: starting from `Stats::new()`, any sequence of `increment_error`
calls and CLI round merges keeps, for every error class `k`,
`len(failed_files[k]) = error_details[k]`. -/
theorem failed_files_length_eq_error_details
    (s : Stats) (h : StatsReachable s) :
    ∀ k, (s.failed_files k).length = s.error_details k := by
  induction h with
  | new => intro k; rfl
  | incr s e p _ ih =>
      intro k
      by_cases hk : k = e <;>
        simp [Stats.increment_error, hk, ih e, ih k]
  | merge total s _ _ iht ihs =>
      intro k
      simp [Stats.merge_round, iht k, ihs k]

/-- C3 witness: the invariant evaluated on a concrete reachable state. -/
theorem failed_files_length_eq_error_details_witness :
    (((Stats.new.increment_error "读取文件失败: x" "a.eml").merge_round
        (Stats.new.increment_error "读取文件失败: x" "b.eml")).failed_files
          "读取文件失败: x").length =
      ((Stats.new.increment_error "读取文件失败: x" "a.eml").merge_round
        (Stats.new.increment_error "读取文件失败: x" "b.eml")).error_details
          "读取文件失败: x" :=
  failed_files_length_eq_error_details _
    (StatsReachable.merge _ _
      (StatsReachable.incr _ _ _ StatsReachable.new)
      (StatsReachable.incr _ _ _ StatsReachable.new))
    "读取文件失败: x"

/-- C10: no operation of the core engine ever writes `parse_errors`:
after any run of the core engine it is still `0` (all failures, the
message-parse class `无法解析邮件文件` included, go through
`increment_error`, which bumps `send_errors` only). -/
theorem core_run_parse_errors_zero
    (s : Stats) (h : CoreRunReachable s) : s.parse_errors = 0 := by
  induction h with
  | new => rfl
  | incr s e p _ ih => simpa [Stats.increment_error] using ih
  | set_count s n _ ih => simpa [Stats.set_email_count] using ih
  | bump_count s _ ih => simpa [Stats.bump_email_count] using ih
  | extend s pd sd _ ih => simpa [Stats.extend_durations] using ih
  | set_dur s d _ ih => simpa [Stats.set_total_duration] using ih

/-- C10 witness: a concrete engine run ends with `parse_errors = 0`. -/
theorem core_run_parse_errors_zero_witness :
    (((Stats.new.increment_error "无法解析邮件文件" "a.eml").set_email_count
        3).set_total_duration 7).parse_errors = 0 :=
  core_run_parse_errors_zero _
    (CoreRunReachable.set_dur _ 7
      (CoreRunReachable.set_count _ 3
        (CoreRunReachable.incr _ _ _ CoreRunReachable.new)))

/-- C4: refuted — `email_count` counts only DATA successes
(`stats.email_count = total_sent`), yet the `Display` impl prints
"successful" as `email_count - send_errors - parse_errors` on `usize`.
On the run with one failure and no successes that subtraction
underflows (a panic in a checked build), so rendering does not succeed,
and whenever errors were recorded the rendered figure cannot equal
`email_count`. -/
theorem display_success_underflows_on_failure :
    (Stats.new.increment_error "邮件发送超时" "a.eml").email_count = 0 ∧
    (Stats.new.increment_error "邮件发送超时" "a.eml").send_errors = 1 ∧
    (Stats.new.increment_error "邮件发送超时" "a.eml").display_success = none ∧
    ((Stats.new.set_email_count 2).increment_error "邮件发送超时"
        "a.eml").display_success = some 1 := by
  exact ⟨rfl, rfl, rfl, rfl⟩

/-- C7: refuted on `"0"` — `"0".parse::<usize>()` succeeds, so
`process_mode` returns `Fixed(0)`, not `Auto`. -/
theorem process_mode_zero_counterexample :
    process_mode "0" = ProcessMode.Fixed 0 ∧
    process_mode "0" ≠ ProcessMode.Auto := by
  exact ⟨rfl, by decide⟩

/-- C7 amended: `process_mode` returns `Auto` for `"auto"`, `Fixed n`
for every string parsing as a `usize` `n` — zero included — and `Auto`
for every string that fails to parse. -/
theorem process_mode_spec :
    process_mode "auto" = ProcessMode.Auto ∧
    (∀ s n, s ≠ "auto" → parseUsize s = some n →
      process_mode s = ProcessMode.Fixed n) ∧
    (∀ s, parseUsize s = none → process_mode s = ProcessMode.Auto) := by
  refine ⟨rfl, ?_, ?_⟩
  · intro s n hs hp
    simp [process_mode, hs, hp]
  · intro s hp
    by_cases hs : s = "auto" <;> simp [process_mode, hs, hp]

/-- C7 witness: the amended rule at `"3"` and at `"x"`. -/
theorem process_mode_spec_witness :
    (("3" : String) ≠ "auto" ∧ parseUsize "3" = some 3 ∧
      process_mode "3" = ProcessMode.Fixed 3) ∧
    (parseUsize "x" = none ∧ process_mode "x" = ProcessMode.Auto) :=
  ⟨⟨by decide, by decide,
      process_mode_spec.2.1 "3" 3 (by decide) (by decide)⟩,
    ⟨by decide, process_mode_spec.2.2 "x" (by decide)⟩⟩

/-- Concatenating the chunks computed by `chunksAux` restores the list,
provided the chunk size is positive and the fuel bounds the length. -/
theorem chunksAux_join (k : Nat) (hk : 1 ≤ k) :
    ∀ (fuel : Nat) (l : List α), l.length ≤ fuel →
      (chunksAux k fuel l).flatten = l := by
  intro fuel
  induction fuel with
  | zero =>
      intro l hl
      cases l with
      | nil => rfl
      | cons a rest => simp at hl
  | succ f ih =>
      intro l hl
      cases l with
      | nil => rfl
      | cons a rest =>
          have hdrop : ((a :: rest).drop k).length ≤ f := by
            simp only [List.length_drop, List.length_cons]
            simp only [List.length_cons] at hl
            omega
          simp only [chunksAux, List.flatten]
          rw [ih _ hdrop, List.take_append_drop]

/-- A positive list length and worker count give a positive chunk size. -/
theorem divCeil_pos (a b : Nat) (ha : 1 ≤ a) (hb : 1 ≤ b) :
    1 ≤ divCeil a b := by
  unfold divCeil
  by_cases h : a % b = 0
  · have hdvd : b ∣ a := Nat.dvd_of_mod_eq_zero h
    have hba : b ≤ a := Nat.le_of_dvd (by omega) hdvd
    have := Nat.div_pos hba (by omega)
    simp [h]
    omega
  · simp [h]

/-- C5: refuted on the empty source list — there `chunk_size = 0` and
Rust `slice::chunks(0)` panics (`chunk size must be non-zero`), so the
partition is not defined. -/
theorem scheduler_chunks_empty_counterexample :
    divCeil (0 : Nat) 1 = 0 ∧
    scheduler_chunks ([] : List String) 1 = none := by
  exact ⟨rfl, rfl⟩

/-- C5 amended: for every nonempty source list and worker count
`n ≥ 1`, the partition into chunks of size `ceil(total / n)` is defined
and concatenating the chunks restores the full source list (order
preserved within and across chunks). -/
theorem scheduler_chunks_total
    (files : List String) (n : Nat) (hne : files ≠ []) (hn : 1 ≤ n) :
    ∃ cs, scheduler_chunks files n = some cs ∧ cs.flatten = files := by
  have hlen : 1 ≤ files.length := by
    cases files with
    | nil => exact absurd rfl hne
    | cons a rest => simp
  have hk : 1 ≤ divCeil files.length n := divCeil_pos _ _ hlen hn
  refine ⟨chunksAux (divCeil files.length n) files.length files, ?_, ?_⟩
  · simp [scheduler_chunks, chunksRust]
    omega
  · exact chunksAux_join _ hk _ _ le_rfl

/-- C5 witness: the amended partition law on a concrete list. -/
theorem scheduler_chunks_total_witness :
    ((["a.eml", "b.eml", "c.eml"] : List String) ≠ [] ∧ 1 ≤ 2) ∧
    (∃ cs, scheduler_chunks ["a.eml", "b.eml", "c.eml"] 2 = some cs ∧
      cs.flatten = ["a.eml", "b.eml", "c.eml"]) :=
  ⟨⟨by decide, by decide⟩,
    scheduler_chunks_total ["a.eml", "b.eml", "c.eml"] 2 (by decide) (by decide)⟩

/-- C8: refuted when a credential is missing — both gates check the
credentials before the TLS posture, so with `auth_mode = true`,
`use_tls = false`, `port = 25` and no username the recorded class is the
missing-credentials identifier, not the needs-TLS one (and the two
needs-TLS identifiers differ between the paths, `认证失败: 需要TLS` in
the worker and `认证失败: 需要TLS连接` in the single-attachment path). -/
theorem auth_gate_missing_credentials_counterexample :
    batch_auth_gate true none (some "pw") false 25 =
      GateOutcome.recordAll "认证失败: 凭证不完整" ∧
    attachment_auth_gate true none (some "pw") false 25 =
      GateOutcome.recordAll "认证失败: 缺少用户名或密码" ∧
    ("认证失败: 凭证不完整" : String) ≠ "认证失败: 需要TLS" ∧
    ("认证失败: 凭证不完整" : String) ≠ "认证失败: 需要TLS连接" := by
  exact ⟨rfl, rfl, by decide, by decide⟩

/-- C8 amended: with `auth_mode = true`, `use_tls = false` and
`port ≠ 465`, no session is ever opened (in both paths the gate never
yields `openSession`, whatever the credentials); and provided both
credentials are present, every source of the batch is recorded with the
needs-TLS class — `认证失败: 需要TLS` in the `EmlBatch` worker path and
`认证失败: 需要TLS连接` in the single-attachment path.  With a missing
credential the recorded class is the missing-credentials identifier
instead. -/
theorem auth_gate_requires_tls (u p : String) (port : Nat)
    (batch : List String) (hport : port ≠ 465) :
    batch_auth_gate true (some u) (some p) false port =
      GateOutcome.recordAll "认证失败: 需要TLS" ∧
    gate_failures (batch_auth_gate true (some u) (some p) false port) batch =
      batch.map (fun f => ("认证失败: 需要TLS", f)) ∧
    attachment_auth_gate true (some u) (some p) false port =
      GateOutcome.recordAll "认证失败: 需要TLS连接" ∧
    (∀ uo po : Option String,
      batch_auth_gate true uo po false port ≠ GateOutcome.openSession ∧
      attachment_auth_gate true uo po false port ≠ GateOutcome.openSession) := by
  have hbeq : (port == 465) = false := by
    simpa using hport
  refine ⟨?_, ?_, ?_, ?_⟩
  · simp [batch_auth_gate, hbeq]
  · simp [batch_auth_gate, hbeq, gate_failures]
  · simp [attachment_auth_gate, hbeq]
  · intro uo po
    cases uo with
    | none => simp [batch_auth_gate, attachment_auth_gate]
    | some u0 =>
        cases po with
        | none => simp [batch_auth_gate, attachment_auth_gate]
        | some p0 => simp [batch_auth_gate, attachment_auth_gate, hbeq]

/-- C8 witness: the amended gating at port 25 for a one-source batch. -/
theorem auth_gate_requires_tls_witness :
    ((25 : Nat) ≠ 465) ∧
    (batch_auth_gate true (some "u") (some "p") false 25 =
        GateOutcome.recordAll "认证失败: 需要TLS" ∧
      gate_failures (batch_auth_gate true (some "u") (some "p") false 25)
          ["a.eml"] = [("认证失败: 需要TLS", "a.eml")] ∧
      attachment_auth_gate true (some "u") (some "p") false 25 =
        GateOutcome.recordAll "认证失败: 需要TLS连接" ∧
      (∀ uo po : Option String,
        batch_auth_gate true uo po false 25 ≠ GateOutcome.openSession ∧
        attachment_auth_gate true uo po false 25 ≠ GateOutcome.openSession)) :=
  ⟨by decide, auth_gate_requires_tls "u" "p" 25 ["a.eml"] (by decide)⟩

/-- On a text with no regex match, `anonymize_text` is the identity on
both the text and the state (the match list is empty, so the fold never
runs). -/
theorem anonymize_text_matchless (st : AnonState) (text : String)
    (h : findEmails text = []) : anonymize_text st text = (text, st) := by
  simp [anonymize_text, h]

/-- C6: refuted — with the default domain `example.com` the anonymised
addresses themselves match the email regex, and the map only caches the
original addresses, so a second application redraws their local parts:
on `user@domain.com` the first pass yields `ABCDEFGH@example.com` and
the second turns it into `IJKLMNOP@example.com`. -/
theorem anonymize_text_not_idempotent :
    (anonymize_text (AnonState.new "example.com" rngStd)
        "user@domain.com").1 = "ABCDEFGH@example.com" ∧
    (anonymize_text
        (anonymize_text (AnonState.new "example.com" rngStd)
          "user@domain.com").2
        (anonymize_text (AnonState.new "example.com" rngStd)
          "user@domain.com").1).1 = "IJKLMNOP@example.com" ∧
    (anonymize_text
        (anonymize_text (AnonState.new "example.com" rngStd)
          "user@domain.com").2
        (anonymize_text (AnonState.new "example.com" rngStd)
          "user@domain.com").1).1 ≠
      (anonymize_text (AnonState.new "example.com" rngStd)
        "user@domain.com").1 := by
  exact ⟨by decide, by decide, by decide⟩

/-- C6 amended: a second application returns the first output unchanged
exactly in the benign case, namely when the first output contains no
match of the email regex (in particular whenever the anonymised
addresses do not themselves have mail-address shape); with matching
output the addresses are redrawn, as the counterexample shows. -/
theorem anonymize_text_idempotent_on_matchless_output
    (st : AnonState) (text : String)
    (h : findEmails (anonymize_text st text).1 = []) :
    (anonymize_text (anonymize_text st text).2
        (anonymize_text st text).1).1 = (anonymize_text st text).1 := by
  rw [anonymize_text_matchless _ _ h]

/-- C6 witness: the amended statement on a matchless text. -/
theorem anonymize_text_idempotent_witness :
    findEmails (anonymize_text (AnonState.new "example.com" rngStd)
        "hello world").1 = [] ∧
    (anonymize_text
        (anonymize_text (AnonState.new "example.com" rngStd) "hello world").2
        (anonymize_text (AnonState.new "example.com" rngStd)
          "hello world").1).1 =
      (anonymize_text (AnonState.new "example.com" rngStd) "hello world").1 :=
  ⟨by decide, anonymize_text_idempotent_on_matchless_output _ _ (by decide)⟩

/-- C2: refuted — `save_failed_email` copies the original file from disk
(`fs::copy(source_path, ..)`) while the DATA bytes have been rewritten
by the anonymizer, so with `anonymize_emails` enabled the two views
differ on any source containing an address. -/
theorem wire_bytes_differ_from_sink_counterexample :
    wire_bytes_keep true (AnonState.new "example.com" rngStd)
        "From: user@domain.com" = "From: ABCDEFGH@example.com" ∧
    save_failed_email_bytes "From: user@domain.com" =
        "From: user@domain.com" ∧
    wire_bytes_keep true (AnonState.new "example.com" rngStd)
        "From: user@domain.com" ≠
      save_failed_email_bytes "From: user@domain.com" := by
  exact ⟨by decide, rfl, by decide⟩

/-- C2 amended: the Failed-Email Sink always persists the original
source bytes; these equal the DATA bytes exactly when the content
transform is the identity — in `keep_headers`/default mode with
anonymisation off, or with anonymisation finding no address in the
source.  Under `anonymize_emails` (or `modify_headers`, which rebuilds
the message) the wire bytes generally differ from the persisted
bytes. -/
theorem wire_bytes_eq_sink_when_identity (st : AnonState) (raw : String) :
    wire_bytes_keep false st raw = save_failed_email_bytes raw ∧
    (findEmails raw = [] →
      wire_bytes_keep true st raw = save_failed_email_bytes raw) := by
  refine ⟨rfl, fun h => ?_⟩
  simp [wire_bytes_keep, save_failed_email_bytes,
    anonymize_text_matchless st raw h]

/-- C2 witness: the amended equality on a matchless source. -/
theorem wire_bytes_eq_sink_witness :
    (findEmails "Subject: report" = []) ∧
    wire_bytes_keep true (AnonState.new "example.com" rngStd)
        "Subject: report" = save_failed_email_bytes "Subject: report" :=
  ⟨by decide,
    (wire_bytes_eq_sink_when_identity
      (AnonState.new "example.com" rngStd) "Subject: report").2 (by decide)⟩

/-- `lookupMap` only returns recorded pairs. -/
theorem lookupMap_mem (m : List (String × String)) (k v : String)
    (h : lookupMap m k = some v) : (k, v) ∈ m := by
  induction m with
  | nil => simp [lookupMap] at h
  | cons pr rest ih =>
      rcases pr with ⟨a, b⟩
      by_cases hk : a = k
      · simp [lookupMap, hk] at h
        simp [hk, h]
      · simp [lookupMap, hk] at h
        exact List.mem_cons_of_mem _ (ih h)

/-- Appending a fresh binding makes it findable. -/
theorem lookupMap_append_self (m : List (String × String)) (k v : String)
    (h : lookupMap m k = none) : lookupMap (m ++ [(k, v)]) k = some v := by
  induction m with
  | nil => simp [lookupMap]
  | cons pr rest ih =>
      rcases pr with ⟨a, b⟩
      by_cases hk : a = k
      · simp [lookupMap, hk] at h
      · simp [lookupMap, hk] at h ⊢
        exact ih h

/-- Every sampled character is alphanumeric. -/
theorem alnumChar_alnum :
    ∀ i : Fin 62, ((alnumChar i).isAlpha || (alnumChar i).isDigit) = true := by
  decide

theorem take8_append (L r : List Char) (h : L.length = 8) :
    List.take 8 (L ++ r) = L := by
  rw [← h]; exact List.take_left L r

theorem drop8_append (L r : List Char) (h : L.length = 8) :
    List.drop 8 (L ++ r) = r := by
  rw [← h]; exact List.drop_left L r

/-- A freshly drawn replacement has anonymised-address shape. -/
theorem fresh_isAnonAddress (st : AnonState) :
    isAnonAddress st.target_domain
      (String.mk ((List.range 8).map fun j => alnumChar (st.rng (st.idx + j))) ++
        "@" ++ st.target_domain) = true := by
  have hdata :
      (String.mk ((List.range 8).map fun j => alnumChar (st.rng (st.idx + j))) ++
        "@" ++ st.target_domain).data =
      ((List.range 8).map fun j => alnumChar (st.rng (st.idx + j))) ++
        '@' :: st.target_domain.data := by
    simp [String.data_append]
  have hlen :
      ((List.range 8).map fun j => alnumChar (st.rng (st.idx + j))).length = 8 := by
    simp
  unfold isAnonAddress
  rw [hdata, take8_append _ _ hlen, drop8_append _ _ hlen]
  simp only [decide_eq_true_eq, and_true, List.all_eq_true, Bool.and_eq_true]
  intro c hc
  rcases List.mem_map.mp hc with ⟨j, _, rfl⟩
  exact alnumChar_alnum _

/-- `get_anonymized_email` never changes the target domain. -/
theorem get_preserves_domain (st : AnonState) (email : String) :
    (get_anonymized_email st email).2.target_domain = st.target_domain := by
  rcases h : lookupMap st.map email with _ | v <;>
    simp [get_anonymized_email, h]

/-- `get_anonymized_email` preserves the map-shape invariant. -/
theorem get_preserves_mapOK (st : AnonState) (email : String)
    (hok : AnonMapOK st) : AnonMapOK (get_anonymized_email st email).2 := by
  rcases h : lookupMap st.map email with _ | v
  · intro pr hpr
    rw [get_preserves_domain]
    simp [get_anonymized_email, h] at hpr
    rcases hpr with hpr | hpr
    · exact hok _ hpr
    · rcases pr with ⟨a, b⟩
      simp at hpr
      rw [hpr.2]
      exact fresh_isAnonAddress st
  · intro pr hpr
    rw [get_preserves_domain]
    simp [get_anonymized_email, h] at hpr
    exact hok _ hpr

/-- A cache hit returns the cached value and leaves the state alone. -/
theorem get_found (st : AnonState) (a v : String)
    (h : lookupMap st.map a = some v) : get_anonymized_email st a = (v, st) := by
  simp [get_anonymized_email, h]

/-- The replacement fold of `anonymize_text` preserves the map-shape
invariant and the target domain. -/
theorem anonymize_foldl_preserves (l : List String) :
    ∀ acc : String × AnonState, AnonMapOK acc.2 →
      AnonMapOK ((l.foldl (fun acc email =>
          let step := get_anonymized_email acc.2 email
          (replaceAll acc.1 email step.1, step.2)) acc)).2 ∧
      ((l.foldl (fun acc email =>
          let step := get_anonymized_email acc.2 email
          (replaceAll acc.1 email step.1, step.2)) acc)).2.target_domain =
        acc.2.target_domain := by
  induction l with
  | nil => intro acc h; exact ⟨h, rfl⟩
  | cons e rest ih =>
      intro acc h
      simp only [List.foldl_cons]
      have h1 : AnonMapOK (get_anonymized_email acc.2 e).2 :=
        get_preserves_mapOK acc.2 e h
      have h2 := ih (replaceAll acc.1 e (get_anonymized_email acc.2 e).1,
        (get_anonymized_email acc.2 e).2) h1
      refine ⟨h2.1, ?_⟩
      rw [h2.2]
      exact get_preserves_domain acc.2 e

/-- Every reachable anonymizer state satisfies the map-shape invariant. -/
theorem anonReachable_mapOK (st : AnonState) (h : AnonReachable st) :
    AnonMapOK st := by
  induction h with
  | new d rng => intro pr hpr; simp [AnonState.new] at hpr
  | get st e _ ih => exact get_preserves_mapOK st e ih
  | text st t _ ih => exact (anonymize_foldl_preserves (findEmails t) (t, st) ih).1

/-- C9: refuted — the substitution is textual `str::replace` per matched
address over the whole evolving text, so when one matched address is a
substring of another (here `a@b.com` inside `xa@b.com`), the earlier
replacement clobbers the longer match: `xa@b.com` is matched and mapped
to `IJKLMNOP@example.com`, yet the output contains
`xABCDEFGH@example.com` instead and never its mapped replacement. -/
theorem anonymize_clobbers_overlapping_match :
    findEmails "a@b.com xa@b.com" = ["a@b.com", "xa@b.com"] ∧
    (anonymize_text (AnonState.new "example.com" rngStd)
        "a@b.com xa@b.com").1 =
      "ABCDEFGH@example.com xABCDEFGH@example.com" ∧
    lookupMap (anonymize_text (AnonState.new "example.com" rngStd)
        "a@b.com xa@b.com").2.map "xa@b.com" = some "IJKLMNOP@example.com" ∧
    strContains (anonymize_text (AnonState.new "example.com" rngStd)
        "a@b.com xa@b.com").1 "IJKLMNOP@example.com" = false := by
  exact ⟨by decide, by decide, by decide, by decide⟩

/-- A binding found in the map survives appending further bindings:
`lookupMap` returns the first match and insertions go at the end. -/
theorem lookupMap_append_left (m l : List (String × String)) (k v : String)
    (h : lookupMap m k = some v) : lookupMap (m ++ l) k = some v := by
  induction m with
  | nil => simp [lookupMap] at h
  | cons pr rest ih =>
      rcases pr with ⟨a, b⟩
      by_cases hk : a = k
      · simp [lookupMap, hk] at h ⊢
        exact h
      · simp [lookupMap, hk] at h ⊢
        exact ih h

/-- After any query the queried address is bound in the map to the
returned replacement (a hit leaves the binding, a miss records it). -/
theorem get_binds (st : AnonState) (a : String) :
    lookupMap (get_anonymized_email st a).2.map a =
      some ((get_anonymized_email st a).1) := by
  rcases hl : lookupMap st.map a with _ | v
  · have hmap : (get_anonymized_email st a).2.map =
        st.map ++ [(a, (get_anonymized_email st a).1)] := by
      simp [get_anonymized_email, hl]
    rw [hmap]
    exact lookupMap_append_self _ _ _ hl
  · rw [get_found _ _ _ hl]
    exact hl

/-- One further lookup (for any address) preserves every existing
binding: the map is append-only and a miss appends at the end. -/
theorem get_preserves_binding (st : AnonState) (email a v : String)
    (h : lookupMap st.map a = some v) :
    lookupMap (get_anonymized_email st email).2.map a = some v := by
  rcases hl : lookupMap st.map email with _ | w
  · have hmap : (get_anonymized_email st email).2.map =
        st.map ++ [(email, (get_anonymized_email st email).1)] := by
      simp [get_anonymized_email, hl]
    rw [hmap]
    exact lookupMap_append_left _ _ _ _ h
  · rw [get_found _ _ _ hl]
    exact h

/-- The replacement fold of `anonymize_text` preserves every existing
binding. -/
theorem anonymize_foldl_preserves_binding (l : List String) :
    ∀ (acc : String × AnonState) (a v : String),
      lookupMap acc.2.map a = some v →
      lookupMap ((l.foldl (fun acc email =>
          let step := get_anonymized_email acc.2 email
          (replaceAll acc.1 email step.1, step.2)) acc)).2.map a = some v := by
  induction l with
  | nil => intro acc a v h; exact h
  | cons e rest ih =>
      intro acc a v h
      simp only [List.foldl_cons]
      exact ih _ a v (get_preserves_binding acc.2 e a v h)

/-- Every binding persists through any later evolution of the instance
(any further sequence of lookups and text passes). -/
theorem evolves_preserves_binding (st st' : AnonState)
    (hev : AnonEvolves st st') (a v : String)
    (h : lookupMap st.map a = some v) : lookupMap st'.map a = some v := by
  induction hev with
  | refl => exact h
  | get s' email _ ih => exact get_preserves_binding s' email a v ih
  | text s' t _ ih =>
      exact anonymize_foldl_preserves_binding (findEmails t) (t, s') a v ih

/-- C9 amended: within one anonymizer instance the mapping itself is
stable across the whole run — after the first query for an address `a`
at any reachable state, every later query for `a`, at any state the
instance subsequently evolves to through further lookups and text
passes, returns the identical string, and that string is an 8-character
alphanumeric local part followed by `@anonymize_domain`.  The textual
substitution, however, may destroy an occurrence of a matched address
when another matched address is a substring of it, as the
counterexample shows. -/
theorem get_anonymized_email_stable (st : AnonState) (h : AnonReachable st)
    (a : String) (st' : AnonState)
    (hev : AnonEvolves (get_anonymized_email st a).2 st') :
    (get_anonymized_email st' a).1 = (get_anonymized_email st a).1 ∧
    isAnonAddress st.target_domain (get_anonymized_email st a).1 = true := by
  have hok := anonReachable_mapOK st h
  have hbind := evolves_preserves_binding _ _ hev a _ (get_binds st a)
  constructor
  · rw [get_found _ _ _ hbind]
  · rcases hl : lookupMap st.map a with _ | v
    · have h1 : (get_anonymized_email st a).1 =
          String.mk ((List.range 8).map fun j => alnumChar (st.rng (st.idx + j))) ++
            "@" ++ st.target_domain := by
        simp [get_anonymized_email, hl]
      rw [h1]
      exact fresh_isAnonAddress st
    · rw [get_found _ _ _ hl]
      exact hok _ (lookupMap_mem _ _ _ hl)

/-- C9 witness: the replacement drawn for `u@v.com` at a fresh instance
is returned unchanged by a later query separated by an intervening
`anonymize_text` pass that caches another address. -/
theorem get_anonymized_email_stable_witness :
    (get_anonymized_email
        (anonymize_text
          (get_anonymized_email (AnonState.new "example.com" rngStd)
            "u@v.com").2
          "also w@x.com").2
        "u@v.com").1 =
      (get_anonymized_email (AnonState.new "example.com" rngStd) "u@v.com").1 ∧
    isAnonAddress "example.com"
      (get_anonymized_email (AnonState.new "example.com" rngStd) "u@v.com").1 =
      true :=
  get_anonymized_email_stable (AnonState.new "example.com" rngStd)
    (AnonReachable.new "example.com" rngStd) "u@v.com" _
    (AnonEvolves.text _ _ "also w@x.com" (AnonEvolves.refl _))

/-- C1: refuted — a DATA step that times out records `邮件发送超时`
(whose text contains the claimed substring `超时`) but neither sets
`connection_should_reset` nor breaks the batch: the `Err(_)` arm of the
timeout wrapper has no fatal-substring check (mailer.rs lines
1296–1301). -/
theorem send_batch_timeout_counterexample :
    (send_batch_emails ["x@ex.com"] "x@ex.com" false
        [("a.eml", { EmailScript.allOk with data := DataResult.timedOut })]).reset =
      false ∧
    (send_batch_emails ["x@ex.com"] "x@ex.com" false
        [("a.eml", { EmailScript.allOk with data := DataResult.timedOut })]).failures =
      [("邮件发送超时", "a.eml")] ∧
    strContains "邮件发送超时" "超时" = true := by
  exact ⟨by decide, by decide, by decide⟩

/-- The fatal break of one transaction happens exactly on a MAIL FROM or
DATA command error whose message contains one of the five reset
substrings; RCPT failures and DATA timeouts never cause it. -/
theorem processEmail_fatalBreak_iff (recips : List String) (toAddr : String)
    (mh : Bool) (path : String) (sc : EmailScript) :
    (processEmail recips toAddr mh path sc).fatalBreak = true ↔
      (sc.read_err = none ∧ sc.parse_ok = true ∧ recips.isEmpty = false ∧
        ((∃ e, sc.mail_from = some e ∧
            isConnectionFatal ("设置发件人失败: " ++ e) = true) ∨
          (sc.mail_from = none ∧
            ((List.range recips.length).any fun i =>
              (sc.rcpt.getD i none).isNone) = true ∧
            (if mh then sc.build_err else none) = none ∧
            ∃ e, sc.data = DataResult.err e ∧
              isConnectionFatal ("邮件发送失败: " ++ e) = true))) := by
  unfold processEmail
  rcases hre : sc.read_err with _ | e₁
  · rcases hp : sc.parse_ok
    · simp [hp]
    · rcases hemp : recips.isEmpty
      · rcases hmf : sc.mail_from with _ | e₂
        · rcases hany : (List.range recips.length).any fun i =>
              (sc.rcpt.getD i none).isNone
          · simp [hp, hemp, hmf, hany]
          · rcases hb : (if mh then sc.build_err else none) with _ | e₃
            · rcases hd : sc.data with _ | e₄ | _
              · simp [hp, hemp, hmf, hany, hb, hd]
              · simp [hp, hemp, hmf, hany, hb, hd]
              · simp [hp, hemp, hmf, hany, hb, hd]
            · simp [hp, hemp, hmf, hany, hb]
        · simp [hp, hemp, hmf]
      · simp [hp, hemp]
  · simp [hre]

/-- If the batch loop reaches a transaction that breaks fatally, or
reaches a non-final transaction whose RSET fails, `send_batch_emails`
returns `connection_should_reset = true`. -/
theorem send_batch_reset_on_fatal (recips : List String) (toAddr : String)
    (mh : Bool) :
    ∀ (pre : List (String × EmailScript)) (path : String) (sc : EmailScript)
      (post : List (String × EmailScript)),
      (∀ y ∈ pre, (processEmail recips toAddr mh y.1 y.2).fatalBreak = false ∧
        y.2.rset = none) →
      ((processEmail recips toAddr mh path sc).fatalBreak = true ∨
        (post ≠ [] ∧ sc.rset ≠ none)) →
      (send_batch_emails recips toAddr mh (pre ++ (path, sc) :: post)).reset =
        true := by
  intro pre
  induction pre with
  | nil =>
      intro path sc post hpre hterm
      rcases hterm with hf | ⟨hpost, hrset⟩
      · simp [send_batch_emails, hf]
      · by_cases hf : (processEmail recips toAddr mh path sc).fatalBreak = true
        · simp [send_batch_emails, hf]
        · rcases post with _ | ⟨q, qs⟩
          · exact absurd rfl hpost
          · rcases hrs : sc.rset with _ | r
            · exact absurd hrs hrset
            · simp [send_batch_emails, hf, hrs]
  | cons y pre' ih =>
      intro path sc post hpre hterm
      rcases y with ⟨py, sy⟩
      obtain ⟨hy1, hy2⟩ := hpre (py, sy) (List.mem_cons_self _ _)
      simp only at hy1 hy2
      cases hL : pre' ++ (path, sc) :: post with
      | nil => exact absurd hL (by simp)
      | cons l0 ls =>
          have hrec := ih path sc post
            (fun z hz => hpre z (List.mem_cons_of_mem _ hz)) hterm
          rw [hL] at hrec
          simp only [List.cons_append, send_batch_emails, List.append_eq]
          rw [hL]
          simp only [hy1, hy2, Bool.false_eq_true, if_false]
          exact hrec

/-- C1 amended: the reset substrings are exactly `421`,
`Cannot accept further commands`, `Broken pipe`, `Connection reset`,
`Unparseable SMTP reply`, checked only on MAIL FROM and DATA command
errors; any RSET failure between transactions also forces the reset
(with no substring check); RCPT failures and DATA timeouts never do.
Whenever the batch reaches such a step, `send_batch_emails` returns
`connection_should_reset = true` and the worker then drops its cached
session, so no subsequent batch reuses it. -/
theorem send_batch_reset_policy :
    (∀ (recips : List String) (toAddr : String) (mh : Bool) (path : String)
      (sc : EmailScript),
      (processEmail recips toAddr mh path sc).fatalBreak = true ↔
        (sc.read_err = none ∧ sc.parse_ok = true ∧ recips.isEmpty = false ∧
          ((∃ e, sc.mail_from = some e ∧
              isConnectionFatal ("设置发件人失败: " ++ e) = true) ∨
            (sc.mail_from = none ∧
              ((List.range recips.length).any fun i =>
                (sc.rcpt.getD i none).isNone) = true ∧
              (if mh then sc.build_err else none) = none ∧
              ∃ e, sc.data = DataResult.err e ∧
                isConnectionFatal ("邮件发送失败: " ++ e) = true)))) ∧
    (∀ (recips : List String) (toAddr : String) (mh : Bool)
      (pre : List (String × EmailScript)) (path : String) (sc : EmailScript)
      (post : List (String × EmailScript)),
      (∀ y ∈ pre, (processEmail recips toAddr mh y.1 y.2).fatalBreak = false ∧
        y.2.rset = none) →
      ((processEmail recips toAddr mh path sc).fatalBreak = true ∨
        (post ≠ [] ∧ sc.rset ≠ none)) →
      (send_batch_emails recips toAddr mh (pre ++ (path, sc) :: post)).reset =
        true) ∧
    (∀ (c : Option Unit) (bs : Nat), after_batch_client c true bs = none) :=
  ⟨processEmail_fatalBreak_iff,
    fun recips toAddr mh => send_batch_reset_on_fatal recips toAddr mh,
    fun c bs => by simp [after_batch_client]⟩

/-- C1 witness: a MAIL FROM error containing `421` resets a concrete
batch, and the worker then drops the session. -/
theorem send_batch_reset_policy_witness :
    (send_batch_emails ["x@ex.com"] "x@ex.com" false
        [("a.eml", { EmailScript.allOk with
          mail_from := some "421 Service not available" })]).reset = true ∧
    after_batch_client (some ()) true 10 = none :=
  ⟨send_batch_reset_policy.2.1 ["x@ex.com"] "x@ex.com" false [] "a.eml"
      { EmailScript.allOk with mail_from := some "421 Service not available" } []
      (by intro y hy; simp at hy) (Or.inl (by decide)),
    send_batch_reset_policy.2.2 (some ()) 10⟩

end RSendMail
